import Mathlib

/-!
Shallow embedding of `src/migrator.py` (class `ActivityProjectMigrator`).

The bw2data store is modelled as a `World`: a map from (project name,
database name) to an ordered list of records.  Record attribute
dictionaries are association lists of `PyVal` values (`vnone` plays
Python's `None`).  Activity codes are either plain strings (`Code.s`) or
`Code.gen n`, the model of the fresh `uuid.uuid4().hex` codes drawn by
`create_activity_if_not_found`; a counter in the engine state supplies
them, modelling the "fresh, globally unique" property of uuid4.

The mutually recursive methods `migrate_activity`,
`create_activity_if_not_found` and `_handle_exchanges` are embedded as a
single fuel-indexed interpreter `run` over a `Call` datatype, so that the
whole engine is structurally recursive (on fuel) and kernel-reducible.
`St.scans` counts store read operations, so "the call performs no store
access" is expressible.  The black-box fuzzy scorer
(`fuzz.token_sort_percent`) is a function parameter.
-/

namespace ActMig

/-- Activity codes: plain string codes from the data, or the model of the
fresh random codes generated during creation. -/
inductive Code where
  | s (v : String)
  | gen (n : Nat)
deriving DecidableEq, Repr

/-- Values stored in activity attribute dictionaries.  `vnone` is Python's
`None`; `vkey` is a `(database, code)` key tuple; `vcats` a categories
tuple. -/
inductive PyVal where
  | vnone
  | vstr (v : String)
  | vnum (n : Int)
  | vbool (b : Bool)
  | vkey (db : String) (c : Code)
  | vcats (cats : List String)
deriving DecidableEq, Repr

/-- An exchange as stored on a record: `exc.input.key`, `exc.amount`,
`exc.unit`, `exc["type"]`, plus the extra `name`/`categories` data that
`new_exchange(**details)` persists (absent on source-data exchanges). -/
structure Exchange where
  input : String × Code
  amount : Int
  unit : PyVal
  etype : String
  ename : Option PyVal := none
  ecats : Option PyVal := none
deriving DecidableEq, Repr

/-- A record (activity): its database name, its code, its attribute
dictionary, and its exchanges. -/
structure Record where
  dbname : String
  code : Code
  attrs : List (String × PyVal)
  exchanges : List Exchange
deriving DecidableEq, Repr

/-- Assoc-list lookup with Python's `dict.get` default `None`. -/
def assocGetD : List (String × PyVal) → String → PyVal
  | [], _ => .vnone
  | (k, v) :: rest, key => if k = key then v else assocGetD rest key

/-- `activity.get(key)` / `activity[key]` (total model: a missing key
reads as `None`). -/
def Record.get (r : Record) (k : String) : PyVal :=
  assocGetD r.attrs k

/-- `activity.key`: the global `(database, code)` key. -/
def Record.key (r : Record) : String × Code :=
  (r.dbname, r.code)

/-- A reference to an activity as it is passed around by the migrator:
a bare code (`old_activity_code` with `by_key=False`), a global key tuple
(`by_key=True`), or a full activity object (the not-found sentinel that
`migrate_activity` returns in its first component). -/
inductive Ref where
  | code (c : Code)
  | akey (db : String) (c : Code)
  | act (r : Record)
deriving DecidableEq, Repr

/-- Errors: `notFound` models the `ValueError` "Activity code ... doesn't
exist in the old database"; `biosphereNotFound` the `ValueError`
"Activity '<name>' not found in the new database" raised by
`_handle_biosphere_migration`.  `outOfFuel` is the fuel-exhaustion marker
of the embedding (the source has no recursion guard); `unexpected` labels
branches that are unreachable by typing in the source. -/
inductive MigErr where
  | notFound (aid : Ref)
  | biosphereNotFound (name : String)
  | outOfFuel
  | unexpected
deriving DecidableEq, Repr

/-- Constructor configuration of `ActivityProjectMigrator`. -/
structure MigCfg where
  old_db_name : String
  old_project_name : String
  new_db_name : String
  new_project_name : String
deriving DecidableEq, Repr

/-- The keyword options of `migrate_activity`, with the source's default
values (`verbose` and `biosphere_name` are omitted: `verbose` only prints
and `migrate_activity` never uses its `biosphere_name` parameter). -/
structure MigOpts where
  return_code_only : Bool := false
  create_if_not_found : Bool := false
  return_key_only : Bool := true
  by_key : Bool := false
  fuzzy_match : Bool := true
  fuzzy_match_score : Int := 85
deriving DecidableEq, Repr

/-- One collected exchange-details dictionary, as built by
`_collect_exchange_details`: keys `input`, `amount`, `unit`, `type`,
`name` and (for biosphere exchanges) `categories`, in that insertion
order.  `input` is a `Ref` because `_handle_exchanges` overwrites it with
the first component of a migration result. -/
structure ExchangeDetails where
  input : Ref
  amount : Int
  unit : PyVal
  etype : String
  name : PyVal
  categories : Option PyVal
deriving DecidableEq, Repr

/-- The record stores: (project name, database name) to list of records,
in iteration order. -/
structure World where
  dbs : List ((String × String) × List Record)
deriving DecidableEq, Repr

/-- Lookup of a database by (project, name). -/
def dbLookup : List ((String × String) × List Record) → String × String → Option (List Record)
  | [], _ => none
  | (k, recs) :: rest, q => if k = q then some recs else dbLookup rest q

/-- `bd.projects.set_current(p); bd.Database(d)`: the records of database
`d` in project `p` (empty if the database does not exist). -/
def World.database (w : World) (p d : String) : List Record :=
  (dbLookup w.dbs (p, d)).getD []

/-- Apply `g` to the record list of database `(p, d)`. -/
def World.upd (w : World) (p d : String) (g : List Record → List Record) : World :=
  ⟨w.dbs.map fun ent => (ent.1, if ent.1 = (p, d) then g ent.2 else ent.2)⟩

/-- `new_activity(...).save()`: append a record to database `(p, d)`. -/
def addRecord (w : World) (p d : String) (r : Record) : World :=
  w.upd p d fun recs => recs ++ [r]

/-- `new_exchange(...).save()`: append an exchange to the record with code
`c` in database `(p, d)`. -/
def addExchange (w : World) (p d : String) (c : Code) (e : Exchange) : World :=
  w.upd p d fun recs =>
    recs.map fun r => if r.code = c then { r with exchanges := r.exchanges ++ [e] } else r

/-- First record with the given code (the store's point lookup). -/
def getByCodeL : List Record → Code → Option Record
  | [], _ => none
  | r :: rest, c => if r.code = c then some r else getByCodeL rest c

/-- `bd.get_activity(key)` in project `p` for a key tuple `k`. -/
def get_activity (w : World) (p : String) (k : String × Code) : Option Record :=
  getByCodeL (w.database p k.1) k.2

/-- The exchanges currently attached to the record with code `c` in
database `(p, d)` (empty if absent). -/
def excsOf (w : World) (p d : String) (c : Code) : List Exchange :=
  match getByCodeL (w.database p d) c with
  | some r => r.exchanges
  | none => []

/-- First record satisfying a predicate (the linear scan `for a in db`). -/
def scanFirst (p : Record → Bool) : List Record → Option Record
  | [] => none
  | r :: rest => if p r then some r else scanFirst p rest

/-- Migration-result pairs, as cached: the shaped reference and the found
flag. -/
abbrev MigResult := Ref × Bool

/-- The engine state: the stores, the per-instance `self.cache`, the
fresh-code counter (model of uuid4), and a count of store read
operations. -/
structure St where
  world : World
  cache : List (Ref × MigResult)
  fresh : Nat
  scans : Nat
deriving DecidableEq, Repr

/-- `self.cache` lookup (dict access keyed by the raw argument). -/
def lookupCache : List (Ref × MigResult) → Ref → Option MigResult
  | [], _ => none
  | (k, v) :: rest, a => if k = a then some v else lookupCache rest a

/-- Record one store read. -/
def bumpScan (st : St) : St :=
  { st with scans := st.scans + 1 }

/-- Python `f"{value}"` rendering of an attribute value (the precise text
is irrelevant: the scorer is a black box). -/
def pyStr : PyVal → String
  | .vnone => "None"
  | .vstr v => v
  | .vnum n => toString n
  | .vbool b => toString b
  | .vkey db c =>
    db ++ ":" ++ (match c with | .s v => v | .gen n => "gen" ++ toString n)
  | .vcats cats => String.intercalate "," cats

/-- The attribute value corresponding to a `Ref` when it is stored into an
exchange dict (`exc.input.key` is always a key tuple in the data; the
other constructors are rendered through their key as bw2data proxies
would be). -/
def refVal : Ref → PyVal
  | .code c => .vkey "" c
  | .akey db c => .vkey db c
  | .act r => .vkey r.dbname r.code

/-- The `(database, code)` key denoted by a `Ref` when the store persists
it as an exchange input (a bare code has no database part). -/
def refAsKey : Ref → String × Code
  | .code c => ("", c)
  | .akey db c => (db, c)
  | .act r => r.key

/-- `_extract_activity_details`: the 4-field comparison dict, in insertion
order. -/
def extract_activity_details (a : Record) : List (String × PyVal) :=
  [("name", a.get "name"), ("location", a.get "location"),
   ("unit", a.get "unit"), ("reference product", a.get "reference product")]

/-- The exact-match test of `migrate_activity`:
`all(new_activity[key] == value for key, value in details.items())`. -/
def exact_match (details : List (String × PyVal)) (na : Record) : Bool :=
  details.all fun kv => decide (na.get kv.1 = kv.2)

/-- The biosphere exact-match test of `_handle_biosphere_migration`:
`all(act.get(key) == value for key, value in details.items()
if value is not None and key != "input" and key != "amount" and
key != "type")`. -/
def bio_match (details : List (String × PyVal)) (act : Record) : Bool :=
  details.all fun kv =>
    if kv.2 = PyVal.vnone then true
    else if kv.1 = "input" then true
    else if kv.1 = "amount" then true
    else if kv.1 = "type" then true
    else decide (act.get kv.1 = kv.2)

/-- The joined-field projection used to build fuzzy-matching choice
strings, for the biosphere and the technosphere flavour. -/
def choiceString (biosphere : Bool) (e : Record) : String :=
  if biosphere then pyStr (e.get "name") ++ " " ++ pyStr (e.get "categories")
  else
    pyStr (e.get "name") ++ " " ++ pyStr (e.get "location") ++ " " ++
      pyStr (e.get "reference product")

/-- Stable descending insertion by score. -/
def insertDesc (x : String × Int) : List (String × Int) → List (String × Int)
  | [] => [x]
  | y :: ys => if y.2 < x.2 then x :: y :: ys else y :: insertDesc x ys

/-- Stable sort by descending score (model of `process.extract`'s
best-first ordering). -/
def sortDesc : List (String × Int) → List (String × Int)
  | [] => []
  | x :: xs => insertDesc x (sortDesc xs)

/-- All original entries whose transformed string equals `s`. -/
def matchesFor (choices : List (String × Record)) (s : String) : List Record :=
  (choices.filter fun ch => decide (ch.1 = s)).map fun ch => ch.2

/-- The nested comprehension joining surviving match strings back to their
original entries. -/
def gatherAll (choices : List (String × Record)) : List (String × Int) → List Record
  | [] => []
  | ms :: rest => matchesFor choices ms.1 ++ gatherAll choices rest

/-- `_find_closest_match`: score every choice string, keep the 5 best
(`process.extract(..., limit=5)`), drop those under `score_cutoff`, and
map back to records.  The Python function returns `None` instead of an
empty list; both call sites only test emptiness, so `[]` encodes `None`. -/
def find_closest_match (scorer : String → String → Int) (query : String)
    (database : List Record) (score_cutoff : Int) (biosphere : Bool) : List Record :=
  let choices := database.map fun e => (choiceString biosphere e, e)
  let scored := choices.map fun ch => (ch.1, scorer query ch.1)
  let top := (sortDesc scored).take 5
  let good := top.filter fun ms => decide (score_cutoff ≤ ms.2)
  gatherAll choices good

/-- The exchange-details dict as an association list in insertion order
(`input`, `amount`, `unit`, `type`, then `name`, then `categories` when
present). -/
def ExchangeDetails.toAssoc (d : ExchangeDetails) : List (String × PyVal) :=
  [("input", refVal d.input), ("amount", .vnum d.amount), ("unit", d.unit),
   ("type", .vstr d.etype), ("name", d.name)] ++
    (match d.categories with
     | some cv => [("categories", cv)]
     | none => [])

/-- `_handle_biosphere_migration`: exact scan of the biosphere database on
the filtered comparison fields, else fuzzy match on name and categories
with cutoff 70, else the `BiosphereNotFound` `ValueError`. -/
def handle_biosphere_migration (scorer : String → String → Int) (cfg : MigCfg)
    (w : World) (biosphere_name : String) (details : List (String × PyVal)) :
    Except MigErr ((String × Code) × Bool) :=
  let new_biosphere := w.database cfg.new_project_name biosphere_name
  match new_biosphere.filter (bio_match details) with
  | a :: _ => .ok (a.key, true)
  | [] =>
    let query := pyStr (assocGetD details "name") ++ " " ++ pyStr (assocGetD details "categories")
    match find_closest_match scorer query new_biosphere 70 true with
    | a :: _ => .ok (a.key, true)
    | [] => .error (.biosphereNotFound (pyStr (assocGetD details "name")))

/-- The `(exc.input.key, exc.amount, exc.unit)` duplicate-detection
triple. -/
def excTriple (e : Exchange) : (String × Code) × Int × PyVal :=
  (e.input, e.amount, e.unit)

/-- Membership in the `seen_exchanges` set. -/
def tripleMem (t : (String × Code) × Int × PyVal) :
    List ((String × Code) × Int × PyVal) → Bool
  | [] => false
  | x :: xs => if x = t then true else tripleMem t xs

/-- Build one exchange-details dict: the direct exchange fields plus
`name` (and `categories` for biosphere exchanges) read from the target
activity fetched by `bd.get_activity(exc.input.key)`; `none` when that
fetch fails. -/
def mkDetail (w : World) (p : String) (exc : Exchange) : Option ExchangeDetails :=
  match get_activity w p exc.input with
  | none => none
  | some target =>
    some { input := .akey exc.input.1 exc.input.2, amount := exc.amount,
           unit := exc.unit, etype := exc.etype, name := target.get "name",
           categories :=
             if exc.etype = "biosphere" then some (target.get "categories") else none }

/-- The loop body of `_collect_exchange_details`: iterate the exchanges,
breaking out of the loop entirely at the first repeated triple. -/
def collectGo (w : World) (p : String) :
    List Exchange → List ((String × Code) × Int × PyVal) →
    Except MigErr (List ExchangeDetails)
  | [], _ => .ok []
  | exc :: rest, seen =>
    if tripleMem (excTriple exc) seen then .ok []
    else
      match mkDetail w p exc with
      | none => .error (.notFound (.akey exc.input.1 exc.input.2))
      | some d =>
        match collectGo w p rest (excTriple exc :: seen) with
        | .ok ds => .ok (d :: ds)
        | .error e => .error e

/-- `_collect_exchange_details`. -/
def collect_exchange_details (w : World) (p : String) (a : Record) :
    Except MigErr (List ExchangeDetails) :=
  collectGo w p a.exchanges []

/-- The exchange persisted by `new_act.new_exchange(**exchange_details)`. -/
def detailExchange (d : ExchangeDetails) : Exchange :=
  { input := refAsKey d.input, amount := d.amount, unit := d.unit,
    etype := d.etype, ename := some d.name, ecats := d.categories }

/-- The found-result shaping of `migrate_activity`: key if
`return_key_only`, else code if `return_code_only`, else the full
record. -/
def shapeResult (opts : MigOpts) (na : Record) : Ref :=
  if opts.return_key_only then .akey na.dbname na.code
  else if opts.return_code_only then .code na.code
  else .act na

/-- Fetching the source activity from the old project: by global key
(`bd.get_activity`) or by code (`old_db.get`).  A mis-shaped argument
(e.g. a bare code where a key is expected) fails the fetch, as the store
lookup would. -/
def fetchSource (cfg : MigCfg) (w : World) (by_key : Bool) (aid : Ref) : Option Record :=
  if by_key then
    match aid with
    | .akey db c => get_activity w cfg.old_project_name (db, c)
    | .act r => get_activity w cfg.old_project_name r.key
    | .code _ => none
  else
    match aid with
    | .code c => getByCodeL (w.database cfg.old_project_name cfg.old_db_name) c
    | .akey _ _ => none
    | .act _ => none

/-- The mutually recursive entry points of the engine.  `handleExchanges`
is the body of `_handle_exchanges`; `excLoop` its per-exchange loop;
`attachRest` the tail of one loop iteration (the common
`if not migrated_input[1]` creation fallback followed by
`new_exchange(**details).save()`). -/
inductive Call where
  | migrate (opts : MigOpts) (aid : Ref)
  | create (by_key : Bool) (aid : Ref)
  | handleExchanges (nk : String × Code) (ds : List ExchangeDetails)
  | excLoop (nk : String × Code) (ds : List ExchangeDetails)
  | attachRest (nk : String × Code) (d : ExchangeDetails) (found : Bool)
      (rest : List ExchangeDetails)
deriving Repr

/-- Results of a `Call`: a migration pair, or nothing
(`_handle_exchanges` returns `None`). -/
inductive RunRes where
  | pair (v : Ref) (found : Bool)
  | unit
deriving DecidableEq, Repr

/-- The engine.  Each case is the direct translation of the corresponding
method body of `ActivityProjectMigrator`; fuel only bounds the recursion
that the source leaves unguarded. -/
def run (scorer : String → String → Int) (cfg : MigCfg) :
    Nat → Call → St → Except MigErr RunRes × St
  | 0, _, st => (.error .outOfFuel, st)
  | fuel + 1, .migrate opts aid, st =>
    -- migrate_activity
    (match lookupCache st.cache aid with
     | some r => (.ok (.pair r.1 r.2), st)
     | none =>
       let st1 := bumpScan st
       match fetchSource cfg st.world opts.by_key aid with
       | none => (.error (.notFound aid), st1)
       | some activity =>
         let details := extract_activity_details activity
         let newDb := st.world.database cfg.new_project_name cfg.new_db_name
         let st2 := bumpScan st1
         match scanFirst (exact_match details) newDb with
         | some na =>
           let res := shapeResult opts na
           (.ok (.pair res true), { st2 with cache := (aid, (res, true)) :: st2.cache })
         | none =>
           if opts.fuzzy_match then
             let query := pyStr (assocGetD details "name") ++ " " ++
               pyStr (assocGetD details "location") ++ " " ++
               pyStr (assocGetD details "reference product")
             let st3 := bumpScan st2
             match find_closest_match scorer query newDb opts.fuzzy_match_score false with
             | m :: _ =>
               -- fuzzy result: always the key, and not cached
               (.ok (.pair (.akey m.dbname m.code) true), st3)
             | [] =>
               if opts.create_if_not_found then
                 -- note: the source does not forward by_key here
                 run scorer cfg fuel (.create false aid) st3
               else
                 (.ok (.pair (.act activity) false),
                  { st3 with cache := (aid, (.act activity, false)) :: st3.cache })
           else
             if opts.create_if_not_found then
               run scorer cfg fuel (.create false aid) st2
             else
               (.ok (.pair (.act activity) false),
                { st2 with cache := (aid, (.act activity, false)) :: st2.cache }))
  | fuel + 1, .create bk aid, st =>
    -- create_activity_if_not_found
    let st1 := bumpScan st
    (match fetchSource cfg st.world bk aid with
     | none => (.error (.notFound aid), st1)
     | some activity =>
       let details := extract_activity_details activity
       match collect_exchange_details st.world cfg.old_project_name activity with
       | .error e => (.error e, st1)
       | .ok exds =>
         let code := Code.gen st1.fresh
         let newRec : Record :=
           { dbname := cfg.new_db_name, code := code,
             attrs := details ++ [("auto_generated", PyVal.vbool true)],
             exchanges := [] }
         let st2 := { st1 with
           world := addRecord st1.world cfg.new_project_name cfg.new_db_name newRec,
           fresh := st1.fresh + 1 }
         let out := run scorer cfg fuel (.handleExchanges (cfg.new_db_name, code) exds) st2
         (match out.1 with
          | .error e => .error e
          | .ok _ => .ok (.pair (.akey cfg.new_db_name code) true), out.2))
  | fuel + 1, .handleExchanges nk ds, st =>
    -- _handle_exchanges: synthesize the self production exchange first
    let unitVal := match get_activity st.world cfg.new_project_name nk with
      | some na => na.get "unit"
      | none => PyVal.vnone
    let st1 := { st with
      world := addExchange st.world cfg.new_project_name nk.1 nk.2
        { input := nk, amount := 1, unit := unitVal, etype := "production" } }
    run scorer cfg fuel (.excLoop nk ds) st1
  | _ + 1, .excLoop _ [], st => (.ok .unit, st)
  | fuel + 1, .excLoop nk (d :: rest), st =>
    if d.etype = "biosphere" then
      let st1 := bumpScan st
      match handle_biosphere_migration scorer cfg st.world "biosphere3" d.toAssoc with
      | .error e => (.error e, st1)
      | .ok kf =>
        -- the source assigns the resolved input only in the technosphere
        -- branch, so the biosphere detail keeps its original input here
        run scorer cfg fuel (.attachRest nk d kf.2 rest) st1
    else if d.etype = "production" then
      run scorer cfg fuel (.excLoop nk rest) st
    else
      match run scorer cfg fuel
          (.migrate { return_code_only := false, by_key := true } d.input) st with
      | (.error e, st1) => (.error e, st1)
      | (.ok (.pair v found), st1) =>
        run scorer cfg fuel (.attachRest nk { d with input := v } found rest) st1
      | (.ok .unit, st1) => (.error .unexpected, st1)
  | fuel + 1, .attachRest nk d found rest, st =>
    if found then
      let st1 := { st with
        world := addExchange st.world cfg.new_project_name nk.1 nk.2 (detailExchange d) }
      run scorer cfg fuel (.excLoop nk rest) st1
    else
      match run scorer cfg fuel (.create true d.input) st with
      | (.error e, st1) => (.error e, st1)
      | (.ok (.pair v _), st1) =>
        let d1 := { d with input := v }
        let st2 := { st1 with
          world := addExchange st1.world cfg.new_project_name nk.1 nk.2 (detailExchange d1) }
        run scorer cfg fuel (.excLoop nk rest) st2
      | (.ok .unit, st1) => (.error .unexpected, st1)

/-- Which record a call attaches exchanges to directly. -/
def Call.touch : Call → Option (String × Code)
  | .handleExchanges nk _ => some nk
  | .excLoop nk _ => some nk
  | .attachRest nk _ _ _ => some nk
  | _ => none

/-! Concrete test fixtures used by the witness and counterexample
theorems. -/

/-- A migrator configuration over small named stores. -/
def cfgT : MigCfg :=
  { old_db_name := "olddb", old_project_name := "oldproj",
    new_db_name := "newdb", new_project_name := "newproj" }

/-- A scorer that never matches anything. -/
def scorer0 : String → String → Int := fun _ _ => 0

/-- A scorer that scores everything 100. -/
def scorer100 : String → String → Int := fun _ _ => 100

/-- A source activity with the four comparison attributes. -/
def recA : Record :=
  { dbname := "olddb", code := .s "a",
    attrs := [("name", .vstr "act a"), ("location", .vstr "GLO"),
              ("unit", .vstr "kg"), ("reference product", .vstr "pa")],
    exchanges := [] }

/-- A new-store record agreeing with `recA` on all four comparison
fields. -/
def recN : Record :=
  { dbname := "newdb", code := .s "n",
    attrs := [("name", .vstr "act a"), ("location", .vstr "GLO"),
              ("unit", .vstr "kg"), ("reference product", .vstr "pa")],
    exchanges := [] }

/-- A new-store record that matches `recA` on no comparison field. -/
def recF : Record :=
  { dbname := "newdb", code := .s "f",
    attrs := [("name", .vstr "other"), ("location", .vstr "RER"),
              ("unit", .vstr "unit"), ("reference product", .vstr "pf")],
    exchanges := [] }

/-- State whose new store holds an exact match for `recA`. -/
def stExact : St :=
  { world := ⟨[(("oldproj", "olddb"), [recA]), (("newproj", "newdb"), [recN])]⟩,
    cache := [], fresh := 0, scans := 0 }

/-- State whose new store is empty (creation is the only way out). -/
def stCreate : St :=
  { world := ⟨[(("oldproj", "olddb"), [recA]), (("newproj", "newdb"), [])]⟩,
    cache := [], fresh := 0, scans := 0 }

/-- State whose new store holds only a non-matching candidate (a fuzzy
scorer decides). -/
def stFuzzy : St :=
  { world := ⟨[(("oldproj", "olddb"), [recA]), (("newproj", "newdb"), [recF])]⟩,
    cache := [], fresh := 0, scans := 0 }

/-- The old biosphere flow targeted by `recB`'s biosphere exchange. -/
def recX : Record :=
  { dbname := "oldbio", code := .s "x",
    attrs := [("name", .vstr "Carbon dioxide"), ("categories", .vcats ["air"])],
    exchanges := [] }

/-- A source activity with one biosphere exchange pointing at `recX`. -/
def recB : Record :=
  { dbname := "olddb", code := .s "b",
    attrs := [("name", .vstr "act b"), ("location", .vstr "GLO"),
              ("unit", .vstr "kg"), ("reference product", .vstr "pb")],
    exchanges := [{ input := ("oldbio", .s "x"), amount := 2,
                    unit := .vstr "kg", etype := "biosphere" }] }

/-- The new biosphere flow that matches `recX` by name and categories but
lives under a different key. -/
def recY : Record :=
  { dbname := "biosphere3", code := .s "y",
    attrs := [("name", .vstr "Carbon dioxide"), ("categories", .vcats ["air"]),
              ("unit", .vstr "kg")],
    exchanges := [] }

/-- State for the biosphere-substitution scenario: `recB` must be created
in the new store and its biosphere exchange resolved against `recY`. -/
def stBio : St :=
  { world := ⟨[(("oldproj", "olddb"), [recB]), (("oldproj", "oldbio"), [recX]),
               (("newproj", "newdb"), []), (("newproj", "biosphere3"), [recY])]⟩,
    cache := [], fresh := 0, scans := 0 }

/-- A technosphere target in the old store. -/
def recT : Record :=
  { dbname := "olddb", code := .s "t",
    attrs := [("name", .vstr "tname"), ("location", .vstr "GLO"),
              ("unit", .vstr "kg"), ("reference product", .vstr "pt")],
    exchanges := [] }

/-- A new-store record agreeing with `recT` on all four comparison
fields. -/
def recNT : Record :=
  { dbname := "newdb", code := .s "nt",
    attrs := [("name", .vstr "tname"), ("location", .vstr "GLO"),
              ("unit", .vstr "kg"), ("reference product", .vstr "pt")],
    exchanges := [] }

/-- A source activity with a production exchange and a technosphere
exchange pointing at `recT`. -/
def recB2 : Record :=
  { dbname := "olddb", code := .s "b2",
    attrs := [("name", .vstr "act b2"), ("location", .vstr "GLO"),
              ("unit", .vstr "kg"), ("reference product", .vstr "pb2")],
    exchanges := [{ input := ("olddb", .s "b2"), amount := 1,
                    unit := .vstr "kg", etype := "production" },
                  { input := ("olddb", .s "t"), amount := 3,
                    unit := .vstr "kg", etype := "technosphere" }] }

/-- State for the creation scenario with a production and a technosphere
exchange, the latter resolvable by exact match. -/
def stProd : St :=
  { world := ⟨[(("oldproj", "olddb"), [recB2, recT]),
               (("newproj", "newdb"), [recNT])]⟩,
    cache := [], fresh := 0, scans := 0 }

/-- A source activity whose third exchange repeats the first exchange's
`(target, amount, unit)` triple. -/
def recDup : Record :=
  { dbname := "olddb", code := .s "dup",
    attrs := [("name", .vstr "act dup")],
    exchanges := [{ input := ("olddb", .s "dup"), amount := 1,
                    unit := .vstr "kg", etype := "technosphere" },
                  { input := ("olddb", .s "dup"), amount := 2,
                    unit := .vstr "kg", etype := "technosphere" },
                  { input := ("olddb", .s "dup"), amount := 1,
                    unit := .vstr "kg", etype := "technosphere" }] }

/-- World for the duplicate-truncation scenario. -/
def wDup : World := ⟨[(("oldproj", "olddb"), [recDup])]⟩

/-- A biosphere exchange-details dict for the biosphere-failure
scenario. -/
def dBioMiss : ExchangeDetails :=
  { input := .akey "oldbio" (.s "x"), amount := 2, unit := .vstr "kg",
    etype := "biosphere", name := .vstr "Methane",
    categories := some (.vcats ["air"]) }

/-- State with an empty biosphere store. -/
def stBioMiss : St :=
  { world := ⟨[(("newproj", "biosphere3"), [])]⟩,
    cache := [], fresh := 0, scans := 0 }

/-- State whose cache already holds a result for source id `"a"`. -/
def stCached : St :=
  { world := ⟨[]⟩,
    cache := [(Ref.code (.s "a"), (Ref.akey "newdb" (.s "n"), true))],
    fresh := 0, scans := 0 }

/-- Options forcing the creation path with the full-record result shape. -/
def optsC1 : MigOpts :=
  { create_if_not_found := true, fuzzy_match := false, return_key_only := false }

/-- The record that creation synthesizes from `recA` (fresh code 0, the
four copied attributes, the provenance marker, and the self production
exchange). -/
def recCreated : Record :=
  { dbname := "newdb", code := .gen 0,
    attrs := [("name", .vstr "act a"), ("location", .vstr "GLO"),
              ("unit", .vstr "kg"), ("reference product", .vstr "pa"),
              ("auto_generated", .vbool true)],
    exchanges := [{ input := ("newdb", .gen 0), amount := 1,
                    unit := .vstr "kg", etype := "production" }] }

/-- The exchange-details dict collected from `recB`'s biosphere
exchange. -/
def detC2 : ExchangeDetails :=
  { input := .akey "oldbio" (.s "x"), amount := 2, unit := .vstr "kg",
    etype := "biosphere", name := .vstr "Carbon dioxide",
    categories := some (.vcats ["air"]) }

/-- The biosphere exchange as the creation path actually attaches it:
with the original old-store input key. -/
def bioAttached : Exchange :=
  { input := ("oldbio", .s "x"), amount := 2, unit := .vstr "kg",
    etype := "biosphere", ename := some (.vstr "Carbon dioxide"),
    ecats := some (.vcats ["air"]) }

/-- The details collected from `recB2`'s production exchange. -/
def detP : ExchangeDetails :=
  { input := .akey "olddb" (.s "b2"), amount := 1, unit := .vstr "kg",
    etype := "production", name := .vstr "act b2", categories := none }

/-- The details collected from `recB2`'s technosphere exchange. -/
def detT : ExchangeDetails :=
  { input := .akey "olddb" (.s "t"), amount := 3, unit := .vstr "kg",
    etype := "technosphere", name := .vstr "tname", categories := none }

/-! Auxiliary lemmas about the store model. -/

theorem dbLookup_map_upd (key : String × String) (g : List Record → List Record) :
    ∀ (l : List ((String × String) × List Record)) (q : String × String),
      dbLookup (l.map fun ent => (ent.1, if ent.1 = key then g ent.2 else ent.2)) q
        = if q = key then (dbLookup l q).map g else dbLookup l q := by
  intro l
  induction l with
  | nil => intro q; simp [dbLookup]
  | cons ent rest ih =>
    intro q
    obtain ⟨k, recs⟩ := ent
    by_cases hkq : k = q
    · subst hkq
      by_cases hk : k = key
      · subst hk
        simp [dbLookup]
      · have hk' : ¬ k = key := hk
        simp [dbLookup, hk']
    · simp [dbLookup, hkq, ih]

theorem database_upd (w : World) (p d : String) (g : List Record → List Record)
    (p' d' : String) :
    (w.upd p d g).database p' d'
      = if (p', d') = (p, d) then ((dbLookup w.dbs (p', d')).map g).getD []
        else w.database p' d' := by
  unfold World.upd World.database
  rw [show (⟨w.dbs.map fun ent => (ent.1, if ent.1 = (p, d) then g ent.2 else ent.2)⟩ :
      World).dbs = w.dbs.map fun ent => (ent.1, if ent.1 = (p, d) then g ent.2 else ent.2)
    from rfl]
  rw [dbLookup_map_upd]
  by_cases h : (p', d') = (p, d) <;> simp [h]

theorem getByCodeL_append (l1 l2 : List Record) (c : Code) :
    getByCodeL (l1 ++ l2) c
      = match getByCodeL l1 c with
        | some r => some r
        | none => getByCodeL l2 c := by
  induction l1 with
  | nil => simp [getByCodeL]
  | cons r rest ih =>
    by_cases h : r.code = c <;> simp [getByCodeL, h, ih]

theorem getByCodeL_eq_none (l : List Record) (c : Code)
    (h : ∀ r ∈ l, r.code ≠ c) : getByCodeL l c = none := by
  induction l with
  | nil => rfl
  | cons r rest ih =>
    have hr : r.code ≠ c := h r (by simp)
    simp [getByCodeL, hr]
    exact ih fun r' hr' => h r' (by simp [hr'])

theorem getByCodeL_map_addE_ne (l : List Record) (c c' : Code) (e : Exchange)
    (h : c ≠ c') :
    getByCodeL (l.map fun r =>
        if r.code = c' then { r with exchanges := r.exchanges ++ [e] } else r) c
      = getByCodeL l c := by
  induction l with
  | nil => rfl
  | cons r rest ih =>
    by_cases hr : r.code = c'
    · have hrc : ¬ c' = c := fun hh => h hh.symm
      simp [getByCodeL, hr, hrc, ih]
    · simp [getByCodeL, hr, ih]

theorem getByCodeL_map_addE_eq (l : List Record) (c : Code) (e : Exchange) :
    getByCodeL (l.map fun r =>
        if r.code = c then { r with exchanges := r.exchanges ++ [e] } else r) c
      = (getByCodeL l c).map fun r => { r with exchanges := r.exchanges ++ [e] } := by
  induction l with
  | nil => rfl
  | cons r rest ih =>
    by_cases hr : r.code = c
    · simp [getByCodeL, hr, ih]
    · simp [getByCodeL, hr, ih]

theorem excsOf_addExchange_ne (w : World) (p' d' : String) (c' : Code) (e : Exchange)
    (p d : String) (c : Code) (h : ¬ (p = p' ∧ d = d' ∧ c = c')) :
    excsOf (addExchange w p' d' c' e) p d c = excsOf w p d c := by
  unfold excsOf addExchange
  rw [database_upd]
  by_cases hpd : (p, d) = (p', d')
  · have hc : c ≠ c' := by
      intro hc
      exact h ⟨congrArg Prod.fst hpd, congrArg Prod.snd hpd, hc⟩
    rw [if_pos hpd]
    unfold World.database
    cases hdb : dbLookup w.dbs (p, d) with
    | none => simp
    | some recs => simp [getByCodeL_map_addE_ne recs c c' e hc]
  · rw [if_neg hpd]

theorem excsOf_addExchange_self (w : World) (p d : String) (c : Code) (e : Exchange) :
    excsOf (addExchange w p d c e) p d c
      = match getByCodeL (w.database p d) c with
        | some r => r.exchanges ++ [e]
        | none => [] := by
  unfold excsOf addExchange
  rw [database_upd, if_pos rfl]
  unfold World.database
  cases hdb : dbLookup w.dbs (p, d) with
  | none => simp [getByCodeL]
  | some recs =>
    simp only [Option.map_some', Option.getD_some]
    rw [getByCodeL_map_addE_eq]
    cases getByCodeL recs c <;> simp

theorem excsOf_addRecord_ne (w : World) (p' d' : String) (r : Record)
    (p d : String) (c : Code) (h : r.code ≠ c) :
    excsOf (addRecord w p' d' r) p d c = excsOf w p d c := by
  unfold excsOf addRecord
  rw [database_upd]
  by_cases hpd : (p, d) = (p', d')
  · rw [if_pos hpd]
    unfold World.database
    cases hdb : dbLookup w.dbs (p, d) with
    | none => simp
    | some recs =>
      simp only [Option.map_some', Option.getD_some]
      rw [getByCodeL_append]
      cases hg : getByCodeL recs c with
      | some rr => simp
      | none => simp [getByCodeL, h]
  · rw [if_neg hpd]

theorem scanFirst_exists (p : Record → Bool) (l : List Record)
    (h : ∃ r ∈ l, p r = true) : ∃ na, scanFirst p l = some na := by
  induction l with
  | nil => simp at h
  | cons r rest ih =>
    by_cases hr : p r
    · exact ⟨r, by simp [scanFirst, hr]⟩
    · obtain ⟨x, hx, hpx⟩ := h
      rcases List.mem_cons.mp hx with hx | hx
      · exact absurd (hx ▸ hpx) (by simpa using hr)
      · obtain ⟨na, hna⟩ := ih ⟨x, hx, hpx⟩
        exact ⟨na, by simp [scanFirst, hr, hna]⟩

theorem tripleMem_iff (t : (String × Code) × Int × PyVal)
    (l : List ((String × Code) × Int × PyVal)) :
    tripleMem t l = true ↔ t ∈ l := by
  induction l with
  | nil => simp [tripleMem]
  | cons x xs ih =>
    by_cases hx : x = t
    · simp [tripleMem, hx]
    · have ht : ¬ t = x := fun h => hx h.symm
      simp [tripleMem, hx, ih, ht]

theorem lookupCache_cons_preserve (l : List (Ref × MigResult)) (a q : Ref)
    (r p : MigResult) (h : lookupCache l q = some p) (hn : lookupCache l a = none) :
    lookupCache ((a, r) :: l) q = some p := by
  have hne : a ≠ q := by
    intro he
    rw [he] at hn
    rw [h] at hn
    cases hn
  simp [lookupCache, hne, h]

/-- The global step invariant of the engine, proved by one induction on
fuel: (1) the fresh-code counter never decreases, (2) populated cache
keys keep their value (they are never overwritten), and (3) a call leaves
the exchanges of every record untouched except the record it is
attaching to and the records freshly created during the call. -/
theorem run_state_inv (scorer : String → String → Int) (cfg : MigCfg) :
    ∀ (fuel : Nat) (call : Call) (st : St),
      st.fresh ≤ ((run scorer cfg fuel call st).2).fresh
      ∧ (∀ k p, lookupCache st.cache k = some p →
          lookupCache ((run scorer cfg fuel call st).2).cache k = some p)
      ∧ (∀ pj dj c, (∀ m, c = Code.gen m → m < st.fresh) →
          (∀ nk, call.touch = some nk →
            ¬ (pj = cfg.new_project_name ∧ dj = nk.1 ∧ c = nk.2)) →
          excsOf ((run scorer cfg fuel call st).2).world pj dj c
            = excsOf st.world pj dj c) := by
  intro fuel
  induction fuel with
  | zero =>
    intro call st
    exact ⟨Nat.le_refl _, fun k p h => h, fun pj dj c _ _ => rfl⟩
  | succ n ih =>
    intro call st
    cases call with
    | migrate opts aid =>
      simp only [run]
      split
      · exact ⟨Nat.le_refl _, fun k p h => h, fun pj dj c _ _ => rfl⟩
      next hc =>
        split
        · exact ⟨Nat.le_refl _, fun k p h => h, fun pj dj c _ _ => rfl⟩
        next activity hf =>
          split
          · exact ⟨Nat.le_refl _,
              fun k p h => lookupCache_cons_preserve _ _ _ _ _ h hc,
              fun pj dj c _ _ => rfl⟩
          next hm =>
            by_cases hfz : opts.fuzzy_match = true
            · rw [if_pos hfz]
              split
              · exact ⟨Nat.le_refl _, fun k p h => h, fun pj dj c _ _ => rfl⟩
              · by_cases hcr : opts.create_if_not_found = true
                · rw [if_pos hcr]
                  have IH := ih (Call.create false aid) (bumpScan (bumpScan (bumpScan st)))
                  exact ⟨IH.1, fun k p h => IH.2.1 k p h,
                    fun pj dj c h1 _ =>
                      IH.2.2 pj dj c h1 (fun nk hnk => Option.noConfusion hnk)⟩
                · rw [if_neg hcr]
                  exact ⟨Nat.le_refl _,
                    fun k p h => lookupCache_cons_preserve _ _ _ _ _ h hc,
                    fun pj dj c _ _ => rfl⟩
            · rw [if_neg hfz]
              by_cases hcr : opts.create_if_not_found = true
              · rw [if_pos hcr]
                have IH := ih (Call.create false aid) (bumpScan (bumpScan st))
                exact ⟨IH.1, fun k p h => IH.2.1 k p h,
                  fun pj dj c h1 _ =>
                    IH.2.2 pj dj c h1 (fun nk hnk => Option.noConfusion hnk)⟩
              · rw [if_neg hcr]
                exact ⟨Nat.le_refl _,
                  fun k p h => lookupCache_cons_preserve _ _ _ _ _ h hc,
                  fun pj dj c _ _ => rfl⟩
    | create bk aid =>
      simp only [run]
      split
      · exact ⟨Nat.le_refl _, fun k p h => h, fun pj dj c _ _ => rfl⟩
      next activity hf =>
        split
        · exact ⟨Nat.le_refl _, fun k p h => h, fun pj dj c _ _ => rfl⟩
        next exds hcol =>
          have IH := ih
            (Call.handleExchanges (cfg.new_db_name, Code.gen (bumpScan st).fresh) exds)
            { world := addRecord (bumpScan st).world cfg.new_project_name cfg.new_db_name
                { dbname := cfg.new_db_name, code := Code.gen (bumpScan st).fresh,
                  attrs := extract_activity_details activity ++
                    [("auto_generated", PyVal.vbool true)],
                  exchanges := [] },
              cache := (bumpScan st).cache, fresh := (bumpScan st).fresh + 1,
              scans := (bumpScan st).scans }
          refine ⟨Nat.le_trans (Nat.le_succ _) IH.1, fun k p h => IH.2.1 k p h, ?_⟩
          intro pj dj c h1 _
          have hne : ¬ Code.gen st.fresh = c := by
            intro he
            exact absurd (h1 _ he.symm) (Nat.lt_irrefl _)
          refine Eq.trans (IH.2.2 pj dj c
              (fun m hm => Nat.lt_succ_of_lt (h1 m hm))
              (fun nk' hnk' => by
                simp only [Call.touch] at hnk'
                cases hnk'
                rintro ⟨-, -, hc3⟩
                exact hne hc3.symm)) ?_
          exact excsOf_addRecord_ne _ _ _ _ _ _ _ hne
    | handleExchanges nk ds =>
      simp only [run]
      have IH := ih (Call.excLoop nk ds)
        { world := addExchange st.world cfg.new_project_name nk.1 nk.2
            { input := nk, amount := 1,
              unit := (match get_activity st.world cfg.new_project_name nk with
                | some na => na.get "unit"
                | none => PyVal.vnone),
              etype := "production" },
          cache := st.cache, fresh := st.fresh, scans := st.scans }
      refine ⟨IH.1, fun k p h => IH.2.1 k p h, ?_⟩
      intro pj dj c h1 h2
      have hne := h2 nk rfl
      refine Eq.trans (IH.2.2 pj dj c h1
          (fun nk' hnk' => by
            simp only [Call.touch] at hnk'
            cases hnk'
            exact hne)) ?_
      exact excsOf_addExchange_ne _ _ _ _ _ _ _ _ hne
    | excLoop nk ds =>
      cases ds with
      | nil =>
        exact ⟨Nat.le_refl _, fun k p h => h, fun pj dj c _ _ => rfl⟩
      | cons d rest =>
        simp only [run]
        by_cases hb : d.etype = "biosphere"
        · rw [if_pos hb]
          split
          · exact ⟨Nat.le_refl _, fun k p h => h, fun pj dj c _ _ => rfl⟩
          next kf hbio =>
            have IH := ih (Call.attachRest nk d kf.2 rest) (bumpScan st)
            refine ⟨IH.1, fun k p h => IH.2.1 k p h, ?_⟩
            intro pj dj c h1 h2
            exact IH.2.2 pj dj c h1
              (fun nk' hnk' => by
                simp only [Call.touch] at hnk'
                cases hnk'
                exact h2 nk rfl)
        · rw [if_neg hb]
          by_cases hp : d.etype = "production"
          · rw [if_pos hp]
            have IH := ih (Call.excLoop nk rest) st
            refine ⟨IH.1, fun k p h => IH.2.1 k p h, ?_⟩
            intro pj dj c h1 h2
            exact IH.2.2 pj dj c h1
              (fun nk' hnk' => by
                simp only [Call.touch] at hnk'
                cases hnk'
                exact h2 nk rfl)
          · rw [if_neg hp]
            rcases hrun : run scorer cfg n
                (.migrate { return_code_only := false, by_key := true } d.input) st
              with ⟨res, st1⟩
            have IH1 := ih (.migrate { return_code_only := false, by_key := true } d.input) st
            rw [hrun] at IH1
            have h1mono : st.fresh ≤ st1.fresh := IH1.1
            have h1cache : ∀ k p, lookupCache st.cache k = some p →
                lookupCache st1.cache k = some p := IH1.2.1
            have h1frame : ∀ pj dj c, (∀ m, c = Code.gen m → m < st.fresh) →
                excsOf st1.world pj dj c = excsOf st.world pj dj c :=
              fun pj dj c h1 =>
                IH1.2.2 pj dj c h1 (fun nk' hnk' => Option.noConfusion hnk')
            cases res with
            | error e =>
              exact ⟨h1mono, h1cache, fun pj dj c h1 _ => h1frame pj dj c h1⟩
            | ok r =>
              cases r with
              | unit =>
                exact ⟨h1mono, h1cache, fun pj dj c h1 _ => h1frame pj dj c h1⟩
              | pair v found =>
                have IH2 := ih (Call.attachRest nk { d with input := v } found rest) st1
                refine ⟨Nat.le_trans h1mono IH2.1,
                  fun k p h => IH2.2.1 k p (h1cache k p h), ?_⟩
                intro pj dj c h1 h2
                refine Eq.trans (IH2.2.2 pj dj c
                    (fun m hm => Nat.lt_of_lt_of_le (h1 m hm) h1mono)
                    (fun nk' hnk' => by
                      simp only [Call.touch] at hnk'
                      cases hnk'
                      exact h2 nk rfl)) ?_
                exact h1frame pj dj c h1
    | attachRest nk d found rest =>
      simp only [run]
      by_cases hfound : found = true
      · rw [if_pos hfound]
        have IH := ih (Call.excLoop nk rest)
          { world := addExchange st.world cfg.new_project_name nk.1 nk.2
              (detailExchange d),
            cache := st.cache, fresh := st.fresh, scans := st.scans }
        refine ⟨IH.1, fun k p h => IH.2.1 k p h, ?_⟩
        intro pj dj c h1 h2
        have hne := h2 nk rfl
        refine Eq.trans (IH.2.2 pj dj c h1
            (fun nk' hnk' => by
              simp only [Call.touch] at hnk'
              cases hnk'
              exact hne)) ?_
        exact excsOf_addExchange_ne _ _ _ _ _ _ _ _ hne
      · rw [if_neg hfound]
        rcases hrun : run scorer cfg n (.create true d.input) st with ⟨res, st1⟩
        have IH1 := ih (.create true d.input) st
        rw [hrun] at IH1
        have h1mono : st.fresh ≤ st1.fresh := IH1.1
        have h1cache : ∀ k p, lookupCache st.cache k = some p →
            lookupCache st1.cache k = some p := IH1.2.1
        have h1frame : ∀ pj dj c, (∀ m, c = Code.gen m → m < st.fresh) →
            excsOf st1.world pj dj c = excsOf st.world pj dj c :=
          fun pj dj c h1 =>
            IH1.2.2 pj dj c h1 (fun nk' hnk' => Option.noConfusion hnk')
        cases res with
        | error e =>
          exact ⟨h1mono, h1cache, fun pj dj c h1 _ => h1frame pj dj c h1⟩
        | ok r =>
          cases r with
          | unit =>
            exact ⟨h1mono, h1cache, fun pj dj c h1 _ => h1frame pj dj c h1⟩
          | pair v vf =>
            have IH2 := ih (Call.excLoop nk rest)
              { world := addExchange st1.world cfg.new_project_name nk.1 nk.2
                  (detailExchange { d with input := v }),
                cache := st1.cache, fresh := st1.fresh, scans := st1.scans }
            refine ⟨Nat.le_trans h1mono IH2.1,
              fun k p h => IH2.2.1 k p (h1cache k p h), ?_⟩
            intro pj dj c h1 h2
            have hne := h2 nk rfl
            refine Eq.trans (IH2.2.2 pj dj c
                (fun m hm => Nat.lt_of_lt_of_le (h1 m hm) h1mono)
                (fun nk' hnk' => by
                  simp only [Call.touch] at hnk'
                  cases hnk'
                  exact hne)) ?_
            refine Eq.trans (excsOf_addExchange_ne _ _ _ _ _ _ _ _ hne) ?_
            exact h1frame pj dj c h1

theorem excsOf_addExchange_append (w : World) (p d : String) (c : Code) (e : Exchange) :
    ∃ add, excsOf (addExchange w p d c e) p d c = excsOf w p d c ++ add
      ∧ (add = [] ∨ add = [e]) := by
  rw [excsOf_addExchange_self]
  unfold excsOf
  cases getByCodeL (w.database p d) c with
  | some r => exact ⟨[e], rfl, Or.inr rfl⟩
  | none => exact ⟨[], rfl, Or.inl rfl⟩

/-- The per-exchange loop of `_handle_exchanges` only ever appends
non-production exchanges to the record it is populating (production
details are skipped; the biosphere and technosphere branches attach
exchanges labelled with the detail's own type). -/
theorem excLoop_appends (scorer : String → String → Int) (cfg : MigCfg)
    (nk : String × Code) (F : Nat) (hnk : nk.2 = Code.gen F) :
    ∀ fuel : Nat,
      (∀ (ds : List ExchangeDetails) (st : St), F < st.fresh →
        ∃ copied,
          excsOf ((run scorer cfg fuel (.excLoop nk ds) st).2).world
              cfg.new_project_name nk.1 nk.2
            = excsOf st.world cfg.new_project_name nk.1 nk.2 ++ copied
          ∧ ∀ e ∈ copied, e.etype ≠ "production")
      ∧ (∀ (d : ExchangeDetails) (found : Bool) (rest : List ExchangeDetails) (st : St),
          d.etype ≠ "production" → F < st.fresh →
        ∃ copied,
          excsOf ((run scorer cfg fuel (.attachRest nk d found rest) st).2).world
              cfg.new_project_name nk.1 nk.2
            = excsOf st.world cfg.new_project_name nk.1 nk.2 ++ copied
          ∧ ∀ e ∈ copied, e.etype ≠ "production") := by
  intro fuel
  induction fuel with
  | zero =>
    constructor
    · intro ds st _
      exact ⟨[], by simp [run], by simp⟩
    · intro d found rest st _ _
      exact ⟨[], by simp [run], by simp⟩
  | succ n ih =>
    have hgenF : ∀ (st : St), F < st.fresh → ∀ m, nk.2 = Code.gen m → m < st.fresh := by
      intro st hF m hm
      rw [hnk] at hm
      exact (Code.gen.inj hm) ▸ hF
    constructor
    · intro ds st hF
      cases ds with
      | nil =>
        simp only [run]
        exact ⟨[], by simp, by simp⟩
      | cons d rest =>
        simp only [run]
        by_cases hb : d.etype = "biosphere"
        · rw [if_pos hb]
          split
          · exact ⟨[], by simp [bumpScan], by simp⟩
          next kf hbio =>
            have hdp : d.etype ≠ "production" := by
              rw [hb]
              decide
            obtain ⟨copied, hcp, hnp⟩ := ih.2 d kf.2 rest (bumpScan st) hdp hF
            exact ⟨copied, hcp, hnp⟩
        · rw [if_neg hb]
          by_cases hp : d.etype = "production"
          · rw [if_pos hp]
            exact ih.1 rest st hF
          · rw [if_neg hp]
            rcases hrun : run scorer cfg n
                (.migrate { return_code_only := false, by_key := true } d.input) st
              with ⟨res, st1⟩
            have INV := run_state_inv scorer cfg n
              (.migrate { return_code_only := false, by_key := true } d.input) st
            rw [hrun] at INV
            have hfr : excsOf st1.world cfg.new_project_name nk.1 nk.2
                = excsOf st.world cfg.new_project_name nk.1 nk.2 :=
              INV.2.2 _ _ _ (hgenF st hF) (fun nk' h => Option.noConfusion h)
            have hmono : st.fresh ≤ st1.fresh := INV.1
            cases res with
            | error e => exact ⟨[], by simp [hfr], by simp⟩
            | ok r =>
              cases r with
              | unit => exact ⟨[], by simp [hfr], by simp⟩
              | pair v found =>
                obtain ⟨copied, hcp, hnp⟩ := ih.2 { d with input := v } found rest st1
                  hp (Nat.lt_of_lt_of_le hF hmono)
                exact ⟨copied, by rw [hcp, hfr], hnp⟩
    · intro d found rest st hdp hF
      simp only [run]
      by_cases hfound : found = true
      · rw [if_pos hfound]
        obtain ⟨add, hadd, haddc⟩ := excsOf_addExchange_append st.world
          cfg.new_project_name nk.1 nk.2 (detailExchange d)
        obtain ⟨copied, hcp, hnp⟩ := ih.1 rest
          { world := addExchange st.world cfg.new_project_name nk.1 nk.2
              (detailExchange d),
            cache := st.cache, fresh := st.fresh, scans := st.scans } hF
        refine ⟨add ++ copied, ?_, ?_⟩
        · rw [hcp]
          show excsOf (addExchange st.world cfg.new_project_name nk.1 nk.2
              (detailExchange d)) cfg.new_project_name nk.1 nk.2 ++ copied = _
          rw [hadd, List.append_assoc]
        · intro e he
          rcases List.mem_append.mp he with he | he
          · rcases haddc with h0 | h0
            · rw [h0] at he
              cases he
            · rw [h0] at he
              have := List.mem_singleton.mp he
              rw [this]
              exact hdp
          · exact hnp e he
      · rw [if_neg hfound]
        rcases hrun : run scorer cfg n (.create true d.input) st with ⟨res, st1⟩
        have INV := run_state_inv scorer cfg n (.create true d.input) st
        rw [hrun] at INV
        have hfr : excsOf st1.world cfg.new_project_name nk.1 nk.2
            = excsOf st.world cfg.new_project_name nk.1 nk.2 :=
          INV.2.2 _ _ _ (hgenF st hF) (fun nk' h => Option.noConfusion h)
        have hmono : st.fresh ≤ st1.fresh := INV.1
        cases res with
        | error e => exact ⟨[], by simp [hfr], by simp⟩
        | ok r =>
          cases r with
          | unit => exact ⟨[], by simp [hfr], by simp⟩
          | pair v vf =>
            obtain ⟨add, hadd, haddc⟩ := excsOf_addExchange_append st1.world
              cfg.new_project_name nk.1 nk.2 (detailExchange { d with input := v })
            obtain ⟨copied, hcp, hnp⟩ := ih.1 rest
              { world := addExchange st1.world cfg.new_project_name nk.1 nk.2
                  (detailExchange { d with input := v }),
                cache := st1.cache, fresh := st1.fresh, scans := st1.scans }
              (Nat.lt_of_lt_of_le hF hmono)
            refine ⟨add ++ copied, ?_, ?_⟩
            · rw [hcp]
              show excsOf (addExchange st1.world cfg.new_project_name nk.1 nk.2
                  (detailExchange { d with input := v }))
                  cfg.new_project_name nk.1 nk.2 ++ copied = _
              rw [hadd, hfr, List.append_assoc]
            · intro e he
              rcases List.mem_append.mp he with he | he
              · rcases haddc with h0 | h0
                · rw [h0] at he
                  cases he
                · rw [h0] at he
                  have := List.mem_singleton.mp he
                  rw [this]
                  exact hdp
              · exact hnp e he

theorem filterMap_all_some_length {α β : Type _} (f : α → Option β) :
    ∀ l : List α, (∀ e ∈ l, (f e).isSome) → (l.filterMap f).length = l.length := by
  intro l
  induction l with
  | nil => intro _; rfl
  | cons a rest ih =>
    intro h
    obtain ⟨b, hb⟩ := Option.isSome_iff_exists.mp (h a (by simp))
    rw [List.filterMap_cons, hb]
    simp only [List.length_cons]
    rw [ih fun e he => h e (by simp [he])]

/-- The duplicate-truncation behaviour of the collection loop: as soon as
the triple of the current exchange has been seen, the loop stops and
returns exactly the details collected so far. -/
theorem collectGo_trunc (w : World) (p : String) :
    ∀ (exs : List Exchange) (seen : List ((String × Code) × Int × PyVal)) (k : Nat)
      (hk : k < exs.length),
      ((exs.take k).map excTriple).Nodup →
      (∀ t ∈ (exs.take k).map excTriple, t ∉ seen) →
      (excTriple (exs.get ⟨k, hk⟩) ∈ seen ∨
        excTriple (exs.get ⟨k, hk⟩) ∈ (exs.take k).map excTriple) →
      (∀ e ∈ exs.take k, (mkDetail w p e).isSome) →
      collectGo w p exs seen = .ok ((exs.take k).filterMap (mkDetail w p)) := by
  intro exs
  induction exs with
  | nil =>
    intro seen k hk
    exact absurd hk (Nat.not_lt_zero k)
  | cons e rest ih =>
    intro seen k hk hnd hseen hstop hres
    cases k with
    | zero =>
      have hmem : excTriple e ∈ seen := by
        rcases hstop with h | h
        · exact h
        · simp at h
      simp [collectGo, (tripleMem_iff _ _).mpr hmem]
    | succ k' =>
      have htk : (e :: rest).take (k' + 1) = e :: rest.take k' := List.take_succ_cons
      rw [htk] at hnd hseen hres ⊢
      simp only [List.map_cons] at hnd hseen
      have hnd' := (List.nodup_cons.mp hnd).2
      have hhead := (List.nodup_cons.mp hnd).1
      have he_notseen : excTriple e ∉ seen := hseen _ (by simp)
      have hmf : tripleMem (excTriple e) seen = false := by
        cases hmb : tripleMem (excTriple e) seen
        · rfl
        · exact absurd ((tripleMem_iff _ _).mp hmb) he_notseen
      obtain ⟨de, hde⟩ := Option.isSome_iff_exists.mp (hres e (by simp))
      have hk' : k' < rest.length := Nat.lt_of_succ_lt_succ hk
      have hget : (e :: rest).get ⟨k' + 1, hk⟩ = rest.get ⟨k', hk'⟩ := rfl
      have hstop' : excTriple (rest.get ⟨k', hk'⟩) ∈ (excTriple e :: seen) ∨
          excTriple (rest.get ⟨k', hk'⟩) ∈ (rest.take k').map excTriple := by
        rw [hget] at hstop
        rcases hstop with h | h
        · exact Or.inl (List.mem_cons_of_mem _ h)
        · rw [htk, List.map_cons] at h
          rcases List.mem_cons.mp h with h | h
          · exact Or.inl (h ▸ List.mem_cons_self _ _)
          · exact Or.inr h
      have hseen' : ∀ t ∈ (rest.take k').map excTriple, t ∉ (excTriple e :: seen) := by
        intro t ht hmem
        rcases List.mem_cons.mp hmem with h | h
        · exact hhead (h ▸ ht)
        · exact hseen t (List.mem_cons_of_mem _ ht) h
      have hrec := ih (excTriple e :: seen) k' hk' hnd' hseen' hstop'
        (fun e' he' => hres e' (by simp [he']))
      simp only [collectGo, hmf, Bool.false_eq_true, if_false, hde, hrec,
        List.filterMap_cons]

/-! The claim theorems. -/

/-- C10: the migration cache is keyed solely by the source id, with no
dependence on any option flag: once the cache holds a pair for an id,
`migrate_activity` returns exactly that stored pair for every combination
of `return_code_only`, `return_key_only`, `create_if_not_found`,
`by_key`, `fuzzy_match` and `fuzzy_match_score`, and leaves the whole
engine state (stores, cache, scan count) untouched. -/
theorem c10_cache_ignores_flags (scorer : String → String → Int) (cfg : MigCfg)
    (fuel : Nat) (opts : MigOpts) (aid : Ref) (st : St) (v : Ref) (f : Bool)
    (h : lookupCache st.cache aid = some (v, f)) :
    run scorer cfg (fuel + 1) (.migrate opts aid) st = (.ok (.pair v f), st) := by
  simp only [run, h]

/-- Witness for C10 at a concrete cached state and non-default flags. -/
theorem c10_witness :
    run scorer0 cfgT 1 (.migrate { by_key := true, fuzzy_match := false }
        (.code (.s "a"))) stCached
      = (.ok (.pair (.akey "newdb" (.s "n")) true), stCached) :=
  c10_cache_ignores_flags scorer0 cfgT 0 { by_key := true, fuzzy_match := false }
    (.code (.s "a")) stCached (.akey "newdb" (.s "n")) true rfl

/-- C9: when the source id is absent from the old store,
`create_activity_if_not_found` fails with the `NotFound` `ValueError`
before creating anything: the stores and the cache are unchanged (only
the scan counter moved). -/
theorem c9_create_notfound (scorer : String → String → Int) (cfg : MigCfg)
    (fuel : Nat) (bk : Bool) (aid : Ref) (st : St)
    (h : fetchSource cfg st.world bk aid = none) :
    run scorer cfg (fuel + 1) (.create bk aid) st
      = (.error (.notFound aid), bumpScan st)
    ∧ (bumpScan st).world = st.world ∧ (bumpScan st).cache = st.cache := by
  refine ⟨?_, rfl, rfl⟩
  simp only [run, h]

/-- Witness for C9: a code that does not exist in the old store. -/
theorem c9_witness :
    run scorer0 cfgT 3 (.create false (.code (.s "zz"))) stCreate
      = (.error (.notFound (.code (.s "zz"))), bumpScan stCreate)
    ∧ (bumpScan stCreate).world = stCreate.world
    ∧ (bumpScan stCreate).cache = stCreate.cache :=
  c9_create_notfound scorer0 cfgT 2 false (.code (.s "zz")) stCreate rfl

/-- C8: in biosphere resolution, when no biosphere record matches exactly
and the fuzzy matcher (query = name concatenated with categories, cutoff
70, top 5) returns no candidate, `_handle_biosphere_migration` fails with
the `BiosphereNotFound` `ValueError`, and the per-exchange loop of the
creation path propagates that error to its caller; a not-found pair is
never returned. -/
theorem c8_biosphere_error (scorer : String → String → Int) (cfg : MigCfg)
    (fuel : Nat) (st : St) (nk : String × Code)
    (d : ExchangeDetails) (rest : List ExchangeDetails)
    (hb : d.etype = "biosphere")
    (hex : (st.world.database cfg.new_project_name "biosphere3").filter
      (bio_match d.toAssoc) = [])
    (hfz : find_closest_match scorer
        (pyStr (assocGetD d.toAssoc "name") ++ " " ++
          pyStr (assocGetD d.toAssoc "categories"))
        (st.world.database cfg.new_project_name "biosphere3") 70 true = []) :
    handle_biosphere_migration scorer cfg st.world "biosphere3" d.toAssoc
      = .error (.biosphereNotFound (pyStr (assocGetD d.toAssoc "name")))
    ∧ run scorer cfg (fuel + 1) (.excLoop nk (d :: rest)) st
      = (.error (.biosphereNotFound (pyStr (assocGetD d.toAssoc "name"))),
         bumpScan st) := by
  have hmain : handle_biosphere_migration scorer cfg st.world "biosphere3" d.toAssoc
      = .error (.biosphereNotFound (pyStr (assocGetD d.toAssoc "name"))) := by
    simp only [handle_biosphere_migration]
    rw [hex, hfz]
  refine ⟨hmain, ?_⟩
  simp only [run]
  rw [if_pos hb, hmain]

/-- Witness for C8: an empty biosphere store rejects every detail. -/
theorem c8_witness :
    handle_biosphere_migration scorer0 cfgT stBioMiss.world "biosphere3" dBioMiss.toAssoc
      = .error (.biosphereNotFound (pyStr (assocGetD dBioMiss.toAssoc "name")))
    ∧ run scorer0 cfgT 3 (.excLoop ("newdb", .gen 0) [dBioMiss]) stBioMiss
      = (.error (.biosphereNotFound (pyStr (assocGetD dBioMiss.toAssoc "name"))),
         bumpScan stBioMiss) :=
  c8_biosphere_error scorer0 cfgT 2 stBioMiss ("newdb", .gen 0) dBioMiss [] rfl rfl rfl

/-- C6: biosphere exact matching compares a candidate only on the
non-null fields of the details dict other than `input`, `amount` and
`type`: for the dicts built by the collector this is exactly agreement on
the non-null `unit`, `name` and `categories` values, whatever the
`input`, `amount` and `type` entries hold. -/
theorem c6_biosphere_field_exclusion (d : ExchangeDetails) (c : Record) :
    bio_match d.toAssoc c = true ↔
      ((d.unit ≠ PyVal.vnone → c.get "unit" = d.unit) ∧
       (d.name ≠ PyVal.vnone → c.get "name" = d.name) ∧
       (∀ cv, d.categories = some cv → cv ≠ PyVal.vnone →
         c.get "categories" = cv)) := by
  cases hcat : d.categories with
  | none =>
    by_cases hu : d.unit = PyVal.vnone <;> by_cases hn : d.name = PyVal.vnone <;>
      simp [bio_match, ExchangeDetails.toAssoc, hcat, hu, hn]
  | some cv =>
    by_cases hu : d.unit = PyVal.vnone <;> by_cases hn : d.name = PyVal.vnone <;>
      by_cases hc2 : cv = PyVal.vnone <;>
      simp [bio_match, ExchangeDetails.toAssoc, hcat, hu, hn, hc2]

/-- C5: whenever some record of the target store matches the source's
four comparison fields exactly, `migrate_activity` (on a cache miss)
returns the first such record as a found result, shapes it by the flags,
caches it, and never invokes the fuzzy matcher: the outcome does not
depend on the scorer, on `fuzzy_match`, or on `fuzzy_match_score`, and
only the two scans before fuzzy matching are performed. -/
theorem c5_exact_precedence (scorer : String → String → Int) (cfg : MigCfg)
    (fuel : Nat) (opts : MigOpts) (aid : Ref) (st : St) (a : Record)
    (hc : lookupCache st.cache aid = none)
    (hf : fetchSource cfg st.world opts.by_key aid = some a)
    (hex : ∃ r ∈ st.world.database cfg.new_project_name cfg.new_db_name,
      exact_match (extract_activity_details a) r = true) :
    ∃ na, scanFirst (exact_match (extract_activity_details a))
        (st.world.database cfg.new_project_name cfg.new_db_name) = some na
      ∧ run scorer cfg (fuel + 1) (.migrate opts aid) st
        = (.ok (.pair (shapeResult opts na) true),
           { st with scans := st.scans + 1 + 1,
                     cache := (aid, (shapeResult opts na, true)) :: st.cache }) := by
  obtain ⟨na, hna⟩ := scanFirst_exists _ _ hex
  refine ⟨na, hna, ?_⟩
  simp only [run, hc, hf, hna]
  rfl

/-- Witness for C5 on a concrete store holding an exact match. -/
theorem c5_witness :
    ∃ na, scanFirst (exact_match (extract_activity_details recA))
        (stExact.world.database cfgT.new_project_name cfgT.new_db_name) = some na
      ∧ run scorer100 cfgT 5 (.migrate {} (.code (.s "a"))) stExact
        = (.ok (.pair (shapeResult {} na) true),
           { stExact with scans := stExact.scans + 1 + 1,
                          cache := ((.code (.s "a")), (shapeResult {} na, true)) ::
                            stExact.cache }) :=
  c5_exact_precedence scorer100 cfgT 4 {} (.code (.s "a")) stExact recA rfl rfl
    ⟨recN, by decide, by decide⟩

/-- C7 (amended): result shaping by the flag priority and caching of the
shaped result hold for exact matches; a fuzzy-found record, however, is
always returned as its key — the shaping flags are ignored — and nothing
is stored in the cache on that path. -/
theorem c7_amended (scorer : String → String → Int) (cfg : MigCfg)
    (fuel : Nat) (opts : MigOpts) (aid : Ref) (st : St) (a : Record)
    (hc : lookupCache st.cache aid = none)
    (hf : fetchSource cfg st.world opts.by_key aid = some a) :
    (∀ na, scanFirst (exact_match (extract_activity_details a))
          (st.world.database cfg.new_project_name cfg.new_db_name) = some na →
        (run scorer cfg (fuel + 1) (.migrate opts aid) st).1
          = .ok (.pair (shapeResult opts na) true)
        ∧ lookupCache ((run scorer cfg (fuel + 1) (.migrate opts aid) st).2).cache aid
          = some (shapeResult opts na, true))
    ∧ (∀ m ms, scanFirst (exact_match (extract_activity_details a))
          (st.world.database cfg.new_project_name cfg.new_db_name) = none →
        opts.fuzzy_match = true →
        find_closest_match scorer
          (pyStr (assocGetD (extract_activity_details a) "name") ++ " " ++
            pyStr (assocGetD (extract_activity_details a) "location") ++ " " ++
            pyStr (assocGetD (extract_activity_details a) "reference product"))
          (st.world.database cfg.new_project_name cfg.new_db_name)
          opts.fuzzy_match_score false = m :: ms →
        (run scorer cfg (fuel + 1) (.migrate opts aid) st).1
          = .ok (.pair (.akey m.dbname m.code) true)
        ∧ ((run scorer cfg (fuel + 1) (.migrate opts aid) st).2).cache = st.cache) := by
  constructor
  · intro na hna
    simp [run, hc, hf, hna, lookupCache, bumpScan]
  · intro m ms hm hfz hfcm
    simp [run, hc, hf, hm, hfz, hfcm, bumpScan]

/-- Witness for C7's amended statement, discharging its two premises on
the exact-match store. -/
theorem c7_witness :
    (∀ na, scanFirst (exact_match (extract_activity_details recA))
          (stExact.world.database cfgT.new_project_name cfgT.new_db_name) = some na →
        (run scorer0 cfgT 5 (.migrate { return_key_only := false, return_code_only := true }
            (.code (.s "a"))) stExact).1
          = .ok (.pair (shapeResult { return_key_only := false, return_code_only := true } na)
              true)
        ∧ lookupCache ((run scorer0 cfgT 5
              (.migrate { return_key_only := false, return_code_only := true }
                (.code (.s "a"))) stExact).2).cache (.code (.s "a"))
          = some (shapeResult { return_key_only := false, return_code_only := true } na, true))
    ∧ (∀ m ms, scanFirst (exact_match (extract_activity_details recA))
          (stExact.world.database cfgT.new_project_name cfgT.new_db_name) = none →
        ({ return_key_only := false, return_code_only := true } : MigOpts).fuzzy_match = true →
        find_closest_match scorer0
          (pyStr (assocGetD (extract_activity_details recA) "name") ++ " " ++
            pyStr (assocGetD (extract_activity_details recA) "location") ++ " " ++
            pyStr (assocGetD (extract_activity_details recA) "reference product"))
          (stExact.world.database cfgT.new_project_name cfgT.new_db_name)
          ({ return_key_only := false, return_code_only := true } : MigOpts).fuzzy_match_score
          false = m :: ms →
        (run scorer0 cfgT 5 (.migrate { return_key_only := false, return_code_only := true }
            (.code (.s "a"))) stExact).1
          = .ok (.pair (.akey m.dbname m.code) true)
        ∧ ((run scorer0 cfgT 5
              (.migrate { return_key_only := false, return_code_only := true }
                (.code (.s "a"))) stExact).2).cache = stExact.cache) :=
  c7_amended scorer0 cfgT 4 { return_key_only := false, return_code_only := true }
    (.code (.s "a")) stExact recA rfl rfl

/-- C7 counterexample: with `return_key_only=False` and
`return_code_only=True`, a record found only by fuzzy matching is still
returned as its key (not its code), and the cache stays empty. -/
theorem c7_counterexample :
    (run scorer100 cfgT 5 (.migrate { return_key_only := false, return_code_only := true }
        (.code (.s "a"))) stFuzzy).1
      = .ok (.pair (.akey "newdb" (.s "f")) true)
    ∧ ((run scorer100 cfgT 5 (.migrate { return_key_only := false, return_code_only := true }
        (.code (.s "a"))) stFuzzy).2).cache = []
    ∧ ∀ cd : Code, Ref.akey "newdb" (.s "f") ≠ .code cd := by
  refine ⟨rfl, rfl, ?_⟩
  intro cd h
  simp at h

/-- C1 (amended): any `migrate_activity` call preserves every populated
cache key unchanged, and whenever a call's result pair has been stored
under the source id (which the exact-match and not-found outcomes do), an
immediately repeated call returns the identical pair while leaving the
state — stores, cache and scan counter — completely untouched. -/
theorem c1_amended (scorer : String → String → Int) (cfg : MigCfg)
    (fuel : Nat) (opts : MigOpts) (aid : Ref) (st : St)
    (res : Except MigErr RunRes) (st' : St)
    (h : run scorer cfg fuel (.migrate opts aid) st = (res, st')) :
    (∀ k p, lookupCache st.cache k = some p → lookupCache st'.cache k = some p)
    ∧ (∀ v f, res = .ok (.pair v f) → lookupCache st'.cache aid = some (v, f) →
        run scorer cfg fuel (.migrate opts aid) st' = (.ok (.pair v f), st')) := by
  constructor
  · intro k p hk
    have hinv := (run_state_inv scorer cfg fuel (.migrate opts aid) st).2.1 k p hk
    rw [h] at hinv
    exact hinv
  · intro v f hres hcc
    cases fuel with
    | zero =>
      have h0 : run scorer cfg 0 (.migrate opts aid) st
          = ((.error .outOfFuel : Except MigErr RunRes), st) := rfl
      rw [h0] at h
      injection h with h1 h2
      rw [← h1] at hres
      exact Except.noConfusion hres
    | succ n =>
      simp only [run, hcc]

/-- Witness for C1's amended statement on the exact-match store. -/
theorem c1_witness :
    (∀ k p, lookupCache stExact.cache k = some p →
      lookupCache ((run scorer0 cfgT 5 (.migrate {} (.code (.s "a"))) stExact).2).cache
        k = some p)
    ∧ (∀ v f, (run scorer0 cfgT 5 (.migrate {} (.code (.s "a"))) stExact).1
          = .ok (.pair v f) →
        lookupCache ((run scorer0 cfgT 5 (.migrate {} (.code (.s "a"))) stExact).2).cache
          (.code (.s "a")) = some (v, f) →
        run scorer0 cfgT 5 (.migrate {} (.code (.s "a")))
            ((run scorer0 cfgT 5 (.migrate {} (.code (.s "a"))) stExact).2)
          = (.ok (.pair v f),
             (run scorer0 cfgT 5 (.migrate {} (.code (.s "a"))) stExact).2)) :=
  c1_amended scorer0 cfgT 5 {} (.code (.s "a")) stExact _ _ rfl

/-- C1 counterexample: on the creation outcome the result is not cached,
so a second identical call re-runs the whole resolution: it performs
store scans (the scan counter moves) and — because the freshly created
record now matches exactly — returns a differently shaped first
component (full record instead of key). -/
theorem c1_counterexample :
    (run scorer0 cfgT 10 (.migrate optsC1 (.code (.s "a"))) stCreate).1
      = .ok (.pair (.akey "newdb" (.gen 0)) true)
    ∧ (run scorer0 cfgT 10 (.migrate optsC1 (.code (.s "a")))
        ((run scorer0 cfgT 10 (.migrate optsC1 (.code (.s "a"))) stCreate).2)).1
      = .ok (.pair (.act recCreated) true)
    ∧ Ref.akey "newdb" (.gen 0) ≠ .act recCreated
    ∧ ((run scorer0 cfgT 10 (.migrate optsC1 (.code (.s "a")))
        ((run scorer0 cfgT 10 (.migrate optsC1 (.code (.s "a"))) stCreate).2)).2).scans
      ≠ ((run scorer0 cfgT 10 (.migrate optsC1 (.code (.s "a"))) stCreate).2).scans := by
  refine ⟨rfl, rfl, by decide, by decide⟩

/-- C4: when the relationship sequence first repeats a
`(target key, amount, unit)` triple at position `k` (all earlier triples
distinct and resolvable), the collector returns exactly the first `k`
details and stops: nothing after position `k` is collected. -/
theorem c4_duplicate_truncation (w : World) (p : String) (a : Record) (k : Nat)
    (hk : k < a.exchanges.length)
    (hnd : ((a.exchanges.take k).map excTriple).Nodup)
    (hdup : excTriple (a.exchanges.get ⟨k, hk⟩) ∈ (a.exchanges.take k).map excTriple)
    (hres : ∀ e ∈ a.exchanges.take k, (mkDetail w p e).isSome) :
    collect_exchange_details w p a
      = .ok ((a.exchanges.take k).filterMap (mkDetail w p))
    ∧ ((a.exchanges.take k).filterMap (mkDetail w p)).length = k := by
  constructor
  · exact collectGo_trunc w p a.exchanges [] k hk hnd
      (fun t _ => List.not_mem_nil t) (Or.inr hdup) hres
  · rw [filterMap_all_some_length _ _ hres, List.length_take]
    exact Nat.min_eq_left (Nat.le_of_lt hk)

/-- Witness for C4: the third exchange of `recDup` repeats the first
exchange's triple, so exactly the first two details are returned. -/
theorem c4_witness :
    collect_exchange_details wDup "oldproj" recDup
      = .ok ((recDup.exchanges.take 2).filterMap (mkDetail wDup "oldproj"))
    ∧ ((recDup.exchanges.take 2).filterMap (mkDetail wDup "oldproj")).length = 2 :=
  c4_duplicate_truncation wDup "oldproj" recDup 2 (by decide) (by decide)
    (by decide) (by decide)

/-- C2 (the code at the failing input): creation collects `recB`'s single
biosphere exchange, biosphere resolution finds the equivalent new-store
flow `("biosphere3", "y")` — yet the exchange attached to the created
record still carries the original old-store input `("oldbio", "x")`: the
resolved biosphere target is computed and then dropped, because the
source only assigns `exchange_details["input"]` inside the technosphere
branch. -/
theorem c2_code_bug :
    collect_exchange_details stBio.world "oldproj" recB = .ok [detC2]
    ∧ handle_biosphere_migration scorer0 cfgT stBio.world "biosphere3" detC2.toAssoc
      = .ok (("biosphere3", Code.s "y"), true)
    ∧ (run scorer0 cfgT 10 (.create false (.code (.s "b"))) stBio).1
      = .ok (.pair (.akey "newdb" (.gen 0)) true)
    ∧ excsOf ((run scorer0 cfgT 10 (.create false (.code (.s "b"))) stBio).2).world
        "newproj" "newdb" (.gen 0)
      = [{ input := ("newdb", .gen 0), amount := 1, unit := .vstr "kg",
           etype := "production" }, bioAttached]
    ∧ bioAttached.input ≠ ("biosphere3", Code.s "y") := by
  refine ⟨rfl, rfl, rfl, rfl, by decide⟩

/-- C3: whenever `create_activity_if_not_found` fetches its source and
collects its exchange details, the record it creates ends up with the
synthesized self-referential production exchange — amount 1, the new
record's own unit, input its own key — as its first exchange, every other
attached exchange is non-production (production details from the source
are skipped, never copied), and the created record carries exactly one
production exchange. -/
theorem c3_production_synthesized (scorer : String → String → Int) (cfg : MigCfg)
    (fuel : Nat) (bk : Bool) (aid : Ref) (st : St) (a : Record)
    (exds : List ExchangeDetails)
    (hfetch : fetchSource cfg st.world bk aid = some a)
    (hcol : collect_exchange_details st.world cfg.old_project_name a = .ok exds)
    (hdb : (dbLookup st.world.dbs (cfg.new_project_name, cfg.new_db_name)).isSome)
    (hwf : ∀ r ∈ st.world.database cfg.new_project_name cfg.new_db_name,
      ∀ m, r.code = Code.gen m → m < st.fresh) :
    ∃ copied,
      excsOf ((run scorer cfg (fuel + 2) (.create bk aid) st).2).world
          cfg.new_project_name cfg.new_db_name (Code.gen st.fresh)
        = { input := (cfg.new_db_name, Code.gen st.fresh), amount := 1,
            unit := a.get "unit", etype := "production" } :: copied
      ∧ (∀ e ∈ copied, e.etype ≠ "production")
      ∧ ({ input := (cfg.new_db_name, Code.gen st.fresh), amount := 1,
           unit := a.get "unit", etype := "production" } :: copied).countP
          (fun e => e.etype == "production") = 1 := by
  obtain ⟨recs, hrecs⟩ := Option.isSome_iff_exists.mp hdb
  have hdbrecs : st.world.database cfg.new_project_name cfg.new_db_name = recs := by
    unfold World.database
    rw [hrecs]
    rfl
  have hdbe : (addRecord st.world cfg.new_project_name cfg.new_db_name { dbname := cfg.new_db_name, code := Code.gen st.fresh, attrs := extract_activity_details a ++ [("auto_generated", PyVal.vbool true)], exchanges := [] }).database cfg.new_project_name cfg.new_db_name = recs ++ [{ dbname := cfg.new_db_name, code := Code.gen st.fresh, attrs := extract_activity_details a ++ [("auto_generated", PyVal.vbool true)], exchanges := [] }] := by
    unfold addRecord
    rw [database_upd, if_pos rfl, hrecs]
    rfl
  have hnone : getByCodeL recs (Code.gen st.fresh) = none := by
    refine getByCodeL_eq_none recs _ (fun r hr he => ?_)
    exact absurd (hwf r (hdbrecs ▸ hr) st.fresh he) (Nat.lt_irrefl _)
  have hga : get_activity (addRecord st.world cfg.new_project_name cfg.new_db_name { dbname := cfg.new_db_name, code := Code.gen st.fresh, attrs := extract_activity_details a ++ [("auto_generated", PyVal.vbool true)], exchanges := [] }) cfg.new_project_name (cfg.new_db_name, Code.gen st.fresh) = some { dbname := cfg.new_db_name, code := Code.gen st.fresh, attrs := extract_activity_details a ++ [("auto_generated", PyVal.vbool true)], exchanges := [] } := by
    unfold get_activity
    rw [show ((cfg.new_db_name, Code.gen st.fresh) : String × Code).1 = cfg.new_db_name
      from rfl]
    rw [hdbe, getByCodeL_append, hnone]
    simp [getByCodeL]
  have hunit : ({ dbname := cfg.new_db_name, code := Code.gen st.fresh, attrs := extract_activity_details a ++ [("auto_generated", PyVal.vbool true)], exchanges := [] } : Record).get "unit" = a.get "unit" := by
    simp [Record.get, extract_activity_details, assocGetD]
  have key : (run scorer cfg (fuel + 2) (.create bk aid) st).2
      = (run scorer cfg fuel
          (.excLoop (cfg.new_db_name, Code.gen st.fresh) exds)
          { world := addExchange (addRecord st.world cfg.new_project_name cfg.new_db_name { dbname := cfg.new_db_name, code := Code.gen st.fresh, attrs := extract_activity_details a ++ [("auto_generated", PyVal.vbool true)], exchanges := [] }) cfg.new_project_name cfg.new_db_name (Code.gen st.fresh) { input := (cfg.new_db_name, Code.gen st.fresh), amount := 1, unit := a.get "unit", etype := "production" },
            cache := st.cache, fresh := st.fresh + 1, scans := st.scans + 1 }).2 := by
    simp only [run, bumpScan, hfetch, hcol, hga, hunit]
  have hpm : getByCodeL ((addRecord st.world cfg.new_project_name cfg.new_db_name { dbname := cfg.new_db_name, code := Code.gen st.fresh, attrs := extract_activity_details a ++ [("auto_generated", PyVal.vbool true)], exchanges := [] }).database cfg.new_project_name cfg.new_db_name) (Code.gen st.fresh) = some { dbname := cfg.new_db_name, code := Code.gen st.fresh, attrs := extract_activity_details a ++ [("auto_generated", PyVal.vbool true)], exchanges := [] } := by
    rw [hdbe, getByCodeL_append, hnone]
    simp [getByCodeL]
  have hstart : excsOf (addExchange (addRecord st.world cfg.new_project_name cfg.new_db_name { dbname := cfg.new_db_name, code := Code.gen st.fresh, attrs := extract_activity_details a ++ [("auto_generated", PyVal.vbool true)], exchanges := [] }) cfg.new_project_name cfg.new_db_name (Code.gen st.fresh) { input := (cfg.new_db_name, Code.gen st.fresh), amount := 1, unit := a.get "unit", etype := "production" }) cfg.new_project_name cfg.new_db_name (Code.gen st.fresh) = [{ input := (cfg.new_db_name, Code.gen st.fresh), amount := 1, unit := a.get "unit", etype := "production" }] := by
    rw [excsOf_addExchange_self, hpm]
    rfl
  obtain ⟨copied, hcp, hnp⟩ :=
    (excLoop_appends scorer cfg (cfg.new_db_name, Code.gen st.fresh) st.fresh rfl fuel).1
      exds
      { world := addExchange (addRecord st.world cfg.new_project_name cfg.new_db_name { dbname := cfg.new_db_name, code := Code.gen st.fresh, attrs := extract_activity_details a ++ [("auto_generated", PyVal.vbool true)], exchanges := [] }) cfg.new_project_name cfg.new_db_name (Code.gen st.fresh) { input := (cfg.new_db_name, Code.gen st.fresh), amount := 1, unit := a.get "unit", etype := "production" },
        cache := st.cache, fresh := st.fresh + 1, scans := st.scans + 1 }
      (Nat.lt_succ_self st.fresh)
  refine ⟨copied, ?_, hnp, ?_⟩
  · rw [key, hcp, hstart]
    rfl
  · rw [List.countP_cons_of_pos _ _ (by simp)]
    rw [List.countP_eq_zero.mpr]
    intro e he
    simp only [beq_iff_eq]
    exact hnp e he

/-- Witness for C3: creating `recB2` (one production and one technosphere
exchange) in the `stProd` store. -/
theorem c3_witness :
    ∃ copied,
      excsOf ((run scorer0 cfgT 10 (.create false (.code (.s "b2"))) stProd).2).world
          cfgT.new_project_name cfgT.new_db_name (Code.gen stProd.fresh)
        = { input := (cfgT.new_db_name, Code.gen stProd.fresh), amount := 1,
            unit := recB2.get "unit", etype := "production" } :: copied
      ∧ (∀ e ∈ copied, e.etype ≠ "production")
      ∧ ({ input := (cfgT.new_db_name, Code.gen stProd.fresh), amount := 1,
           unit := recB2.get "unit", etype := "production" } :: copied).countP
          (fun e => e.etype == "production") = 1 :=
  c3_production_synthesized scorer0 cfgT 8 false (.code (.s "b2")) stProd recB2
    [detP, detT] rfl rfl (by decide)
    (by
      intro r hr m hm
      have hdbe : stProd.world.database cfgT.new_project_name cfgT.new_db_name
          = [recNT] := rfl
      rw [hdbe] at hr
      rw [List.mem_singleton.mp hr] at hm
      exact Code.noConfusion hm)

end ActMig
